import Mathlib

/-!
Shallow embedding of `plugins/krci-devops/scripts/generate-pipeline.py`:
a pipeline-name generator and validator for KRCI naming conventions.

Strings are modelled as Lean `String`s (lists of Unicode characters, as in
Python). Regex matching of the three fixed patterns is modelled by
deterministic character-level matchers that are provably equivalent to the
patterns (the character classes exclude the separator, so maximal-munch
scanning coincides with the regex semantics). Python's `re.match` with a
pattern of the form `^body$` succeeds on a string exactly when `body`
matches the whole string or the whole string minus a single trailing
newline (the documented semantics of `$`); this is modelled explicitly.
-/

namespace GenPipeline

/-- Newline character (code point 10). -/
def nlChar : Char := '\n'

/-- Hyphen character (code point 45). -/
def hyphChar : Char := '-'

/-- Membership in the regex character class `[a-z0-9]`, by code point. -/
def isLowerAlnum (c : Char) : Bool :=
  (97 ≤ c.toNat && c.toNat ≤ 122) || (48 ≤ c.toNat && c.toNat ≤ 57)

/-- Membership in the regex character class `[a-z0-9-]`, by code point. -/
def componentChar (c : Char) : Bool :=
  isLowerAlnum c || c == hyphChar

/-- Full-string match of the regex body `[a-z0-9-]+`. -/
def componentBody (cs : List Char) : Bool :=
  !cs.isEmpty && cs.all componentChar

/-- Python `re.match` for a pattern `^body$` whose body cannot match a
newline: the match succeeds on `cs` itself, or on `cs` minus a single
trailing newline (`$` matches at the end of the string or just before a
newline at the end of the string). -/
def pyMatchDollar (body : List Char → Bool) (cs : List Char) : Bool :=
  body cs ||
    (match cs.reverse with
     | c :: t => c == nlChar && body t.reverse
     | [] => false)

/-- Literal tail of the build pattern after the third hyphen, `default` arm. -/
def buildTailDefault : List Char := "app-build-default".data

/-- Literal tail of the build pattern after the third hyphen, `edp` arm. -/
def buildTailEdp : List Char := "app-build-edp".data

/-- Literal tail of the review pattern after the third hyphen. -/
def reviewTail : List Char := "app-review".data

/-- Scan one `[a-z0-9]+` segment followed by a hyphen and return the rest.
Because `[a-z0-9]` excludes the hyphen, maximal-munch scanning is exactly
the regex semantics of `[a-z0-9]+-`. -/
def chompSegDash (cs : List Char) : Option (List Char) :=
  if cs.takeWhile isLowerAlnum = [] then none
  else
    match cs.dropWhile isLowerAlnum with
    | c :: rest => if c = hyphChar then some rest else none
    | [] => none

/-- Scan `[a-z0-9]+-[a-z0-9]+-[a-z0-9]+-` and return what follows. -/
def matchThreeSeg (cs : List Char) : Option (List Char) :=
  (chompSegDash cs).bind fun r1 => (chompSegDash r1).bind chompSegDash

/-- Full-string match of the build regex body
`[a-z0-9]+-[a-z0-9]+-[a-z0-9]+-app-build-(default|edp)`. -/
def buildBody (cs : List Char) : Bool :=
  match matchThreeSeg cs with
  | some r => decide (r = buildTailDefault) || decide (r = buildTailEdp)
  | none => false

/-- Full-string match of the review regex body
`[a-z0-9]+-[a-z0-9]+-[a-z0-9]+-app-review`. -/
def reviewBody (cs : List Char) : Bool :=
  match matchThreeSeg cs with
  | some r => decide (r = reviewTail)
  | none => false

/-- `BUILD_REGEX.match(name)` as a Boolean (Python semantics of `^...$`). -/
def BUILD_REGEX_match (s : String) : Bool := pyMatchDollar buildBody s.data

/-- `REVIEW_REGEX.match(name)` as a Boolean (Python semantics of `^...$`). -/
def REVIEW_REGEX_match (s : String) : Bool := pyMatchDollar reviewBody s.data

/-- `SUPPORTED_VCS = ["github", "gitlab", "bitbucket"]`. -/
def SUPPORTED_VCS : List String := ["github", "gitlab", "bitbucket"]

/-- `re.match(r"^[a-z0-9-]+$", component)` as a Boolean. -/
def component_regex_match (s : String) : Bool := pyMatchDollar componentBody s.data

/-- `validate_component(component, component_name)`: the returned Boolean
paired with the diagnostics printed to stderr (in order). -/
def validate_component (component component_name : String) : Bool × List String :=
  if component = "" then
    (false, ["Error: " ++ component_name ++ " cannot be empty"])
  else if !component_regex_match component then
    (false,
     ["Error: " ++ component_name ++
        " must contain only lowercase letters, numbers, and hyphens. Got: " ++
        component])
  else
    (true, [])

/-- The warning text printed by `validate_vcs` for an unrecognized provider. -/
def vcs_warning (vcs : String) : String :=
  "Warning: VCS \x27" ++ vcs ++
    "\x27 is not in the list of commonly supported providers: " ++
    String.intercalate ", " SUPPORTED_VCS ++ ". Proceeding anyway."

/-- `validate_vcs(vcs)`: warns (before the structural check) when `vcs` is
outside `SUPPORTED_VCS`, then returns `validate_component(vcs, "VCS")`. -/
def validate_vcs (vcs : String) : Bool × List String :=
  let warn := if SUPPORTED_VCS.contains vcs then [] else [vcs_warning vcs]
  let r := validate_component vcs "VCS"
  (r.fst, warn ++ r.snd)

/-- `validate_pipeline_name(name)`: `(True, "build")` when the build regex
matches, else `(True, "review")` when the review regex matches, else
`(False, None)`. -/
def validate_pipeline_name (name : String) : Bool × Option String :=
  if BUILD_REGEX_match name then (true, some "build")
  else if REVIEW_REGEX_match name then (true, some "review")
  else (false, none)

/-- Python `str.lower` on one character, modelled on the ASCII range only
(code points 65-90 map up by 32; every other character is left unchanged).
Python performs full Unicode case mapping, which this model does not:
non-ASCII uppercase letters and the length-changing mappings are not
lowered. Theorems therefore rely on this function only on inputs where it
agrees with Python: characters of `[a-z0-9-]`, the newline, and other
caseless ASCII, as confined by their hypotheses or concrete inputs. -/
def pyLowerChar (c : Char) : Char :=
  if 65 ≤ c.toNat && c.toNat ≤ 90 then Char.ofNat (c.toNat + 32) else c

/-- Python `str.lower`, character by character. -/
def pyLower (s : String) : String := String.mk (s.data.map pyLowerChar)

/-- `BUILD_PATTERN.format(vcs=..., language=..., framework=...)`. -/
def BUILD_PATTERN_format (vcs language framework : String) : String :=
  vcs ++ "-" ++ language ++ "-" ++ framework ++ "-app-build-default"

/-- `REVIEW_PATTERN.format(vcs=..., language=..., framework=...)`. -/
def REVIEW_PATTERN_format (vcs language framework : String) : String :=
  vcs ++ "-" ++ language ++ "-" ++ framework ++ "-app-review"

/-- `generate_pipeline_names(vcs, language, framework)`: lowercases the
three inputs and substitutes them into the two fixed templates. -/
def generate_pipeline_names (vcs language framework : String) : String × String :=
  (BUILD_PATTERN_format (pyLower vcs) (pyLower language) (pyLower framework),
   REVIEW_PATTERN_format (pyLower vcs) (pyLower language) (pyLower framework))

/-- Observable outcome of one process invocation: exit code, lines printed
to stdout, lines printed to stderr (each `print(...)` call is one entry). -/
structure ExecResult where
  exitCode : Nat
  stdout : List String
  stderr : List String
deriving DecidableEq

/-- The module docstring, printed when fewer than two argv entries exist. -/
def DOCSTRING : String :=
  "\nPipeline Name Generator for EDP-Tekton\n\nThis script generates valid pipeline names following KRCI naming conventions.\nIt validates inputs and produces both build and review pipeline names.\n\nUsage:\n    python generate-pipeline.py <vcs> <language> <framework>\n    python generate-pipeline.py --validate <pipeline-name>\n\nExamples:\n    python generate-pipeline.py github java springboot\n    python generate-pipeline.py gitlab python fastapi\n    python generate-pipeline.py --validate github-java-springboot-app-build-default\n"

/-- Usage line for a wrong argument count in validation mode. -/
def validateUsage : String := "Usage: generate-pipeline.py --validate <pipeline-name>"

/-- Usage line for a wrong argument count in generation mode. -/
def generateUsage : String := "Usage: generate-pipeline.py <vcs> <language> <framework>"

/-- The `--validate` branch of `main`. -/
def validateMode (name : String) : ExecResult :=
  let r := validate_pipeline_name name
  if r.fst then
    ⟨0, ["✓ Valid " ++ (match r.snd with | some t => t | none => "None") ++
          " pipeline name: " ++ name], []⟩
  else
    ⟨1, [],
     ["✗ Invalid pipeline name: " ++ name,
      "\nExpected formats:",
      "  Build:  <vcs>-<language>-<framework>-app-build-default",
      "  Review: <vcs>-<language>-<framework>-app-review"]⟩

/-- One suggested onboarding command line. -/
def onboardingCmd (ptype name vcs : String) : String :=
  "  ./charts/pipelines-library/scripts/onboarding-component.sh --type " ++
    ptype ++ " -n " ++ name ++ " --vcs " ++ vcs

/-- The generation branch of `main` (argv is exactly `[prog, vcs, language,
framework]`): validates vcs, language, framework in order, exiting 1 at the
first failure, else prints the generated names and onboarding commands. -/
def generateMode (vcs language framework : String) : ExecResult :=
  let rv := validate_vcs vcs
  if !rv.fst then ⟨1, [], rv.snd⟩
  else
    let rl := validate_component language "language"
    if !rl.fst then ⟨1, [], rv.snd ++ rl.snd⟩
    else
      let rf := validate_component framework "framework"
      if !rf.fst then ⟨1, [], rv.snd ++ rl.snd ++ rf.snd⟩
      else
        let names := generate_pipeline_names vcs language framework
        ⟨0,
         ["Generated pipeline names:",
          "  Build:  " ++ names.fst,
          "  Review: " ++ names.snd,
          "",
          "Onboarding commands:",
          onboardingCmd "build-pipeline" names.fst vcs,
          onboardingCmd "review-pipeline" names.snd vcs],
         rv.snd ++ rl.snd ++ rf.snd⟩

/-- Dispatch of `main()` on `argv[1]` and the remaining arguments. -/
def mainArgs (arg1 : String) (rest : List String) : ExecResult :=
  if arg1 = "--validate" then
    match rest with
    | [name] => validateMode name
    | _ => ⟨1, [validateUsage], []⟩
  else
    match rest with
    | [language, framework] => generateMode arg1 language framework
    | _ => ⟨1, [generateUsage], []⟩

/-- `main()`, as a function of the full argv (`argv[0]` is the program). -/
def main : List String → ExecResult
  | [] => ⟨1, [DOCSTRING], []⟩
  | [_] => ⟨1, [DOCSTRING], []⟩
  | _ :: arg1 :: rest => mainArgs arg1 rest

/-- A segment of a pipeline name, in the spec's words: non-empty, drawn
from `[a-z0-9]`. -/
def SegOk (a : List Char) : Prop := a ≠ [] ∧ ∀ c ∈ a, isLowerAlnum c = true

/-- The spec's reading of `^seg-seg-seg-<tail>$` anchored to the full
string: the string decomposes into three segments and the literal tail. -/
def MatchesPattern (tail cs : List Char) : Prop :=
  ∃ a b c, SegOk a ∧ SegOk b ∧ SegOk c ∧
    cs = a ++ hyphChar :: (b ++ hyphChar :: (c ++ hyphChar :: tail))

/-- Anchored full-string match of the build pattern, in the spec's words. -/
def BuildShape (cs : List Char) : Prop :=
  MatchesPattern buildTailDefault cs ∨ MatchesPattern buildTailEdp cs

/-- Anchored full-string match of the review pattern, in the spec's words. -/
def ReviewShape (cs : List Char) : Prop := MatchesPattern reviewTail cs

/-- Build-pattern match under Python `$` semantics: anchored to the full
string, or to the string minus one trailing newline. -/
def PyBuild (s : String) : Prop :=
  BuildShape s.data ∨ ∃ t, s.data = t ++ [nlChar] ∧ BuildShape t

/-- Review-pattern match under Python `$` semantics. -/
def PyReview (s : String) : Prop :=
  ReviewShape s.data ∨ ∃ t, s.data = t ++ [nlChar] ∧ ReviewShape t

/-- `validate_pipeline_name` with the two regexes tried in the opposite
order, used to show the result is order-independent. -/
def validate_pipeline_name_review_first (name : String) : Bool × Option String :=
  if REVIEW_REGEX_match name then (true, some "review")
  else if BUILD_REGEX_match name then (true, some "build")
  else (false, none)

/-- A component accepted by the structural check, in the spec's words with
the Python trailing-newline caveat: a non-empty string over `[a-z0-9-]`,
possibly followed by a single trailing newline. -/
def AcceptedComponent (s : String) : Prop :=
  (s.data ≠ [] ∧ ∀ c ∈ s.data, componentChar c = true) ∨
  ∃ t, s.data = t ++ [nlChar] ∧ (t ≠ [] ∧ ∀ c ∈ t, componentChar c = true)

theorem isLowerAlnum_hyph : isLowerAlnum hyphChar = false := by decide

theorem takeWhile_run {p : Char → Bool} {a : List Char} (x : Char) (r : List Char)
    (ha : ∀ c ∈ a, p c = true) (hx : p x = false) :
    (a ++ x :: r).takeWhile p = a ∧ (a ++ x :: r).dropWhile p = x :: r := by
  induction a with
  | nil => simp [List.takeWhile_cons, List.dropWhile_cons, hx]
  | cons h t ih =>
      have hh : p h = true := ha h (by simp)
      have ih' := ih (fun c hc => ha c (by simp [hc]))
      simp [List.takeWhile_cons, List.dropWhile_cons, hh, ih'.1, ih'.2]

theorem chompSegDash_sound {cs r : List Char} (h : chompSegDash cs = some r) :
    ∃ a, SegOk a ∧ cs = a ++ hyphChar :: r := by
  unfold chompSegDash at h
  split at h
  · exact absurd h (by simp)
  · rename_i hne
    cases hdw : cs.dropWhile isLowerAlnum with
    | nil => rw [hdw] at h; exact absurd h (by simp)
    | cons c rest =>
        rw [hdw] at h
        change (if c = hyphChar then some rest else none) = some r at h
        by_cases hc : c = hyphChar
        · rw [if_pos hc] at h
          have hr : rest = r := Option.some.inj h
          have hcs := List.takeWhile_append_dropWhile (p := isLowerAlnum) (l := cs)
          rw [hdw, hc, hr] at hcs
          exact ⟨cs.takeWhile isLowerAlnum, ⟨hne, fun d hd => List.mem_takeWhile_imp hd⟩,
            hcs.symm⟩
        · rw [if_neg hc] at h; exact absurd h (by simp)

theorem chompSegDash_complete {a : List Char} (r : List Char) (ha : SegOk a) :
    chompSegDash (a ++ hyphChar :: r) = some r := by
  obtain ⟨hne, hall⟩ := ha
  have h := takeWhile_run (p := isLowerAlnum) hyphChar r hall isLowerAlnum_hyph
  unfold chompSegDash
  rw [h.1, h.2, if_neg hne]
  change (if hyphChar = hyphChar then some r else none) = some r
  rw [if_pos rfl]

theorem matchThreeSeg_sound {cs r : List Char} (h : matchThreeSeg cs = some r) :
    ∃ a b c, SegOk a ∧ SegOk b ∧ SegOk c ∧
      cs = a ++ hyphChar :: (b ++ hyphChar :: (c ++ hyphChar :: r)) := by
  unfold matchThreeSeg at h
  cases h1 : chompSegDash cs with
  | none => rw [h1] at h; exact absurd h (by simp)
  | some r1 =>
      rw [h1] at h
      simp only [Option.some_bind] at h
      cases h2 : chompSegDash r1 with
      | none => rw [h2] at h; exact absurd h (by simp)
      | some r2 =>
          rw [h2] at h
          simp only [Option.some_bind] at h
          obtain ⟨a, ha, hcs⟩ := chompSegDash_sound h1
          obtain ⟨b, hb, hr1⟩ := chompSegDash_sound h2
          obtain ⟨c, hc, hr2⟩ := chompSegDash_sound h
          exact ⟨a, b, c, ha, hb, hc, by rw [hcs, hr1, hr2]⟩

theorem matchThreeSeg_complete {a b c : List Char} (r : List Char)
    (ha : SegOk a) (hb : SegOk b) (hc : SegOk c) :
    matchThreeSeg (a ++ hyphChar :: (b ++ hyphChar :: (c ++ hyphChar :: r))) = some r := by
  unfold matchThreeSeg
  rw [chompSegDash_complete _ ha]
  simp only [Option.some_bind]
  rw [chompSegDash_complete _ hb]
  simp only [Option.some_bind]
  exact chompSegDash_complete _ hc

theorem buildBody_iff (cs : List Char) : buildBody cs = true ↔ BuildShape cs := by
  constructor
  · intro h
    unfold buildBody at h
    cases h3 : matchThreeSeg cs with
    | none => rw [h3] at h; exact absurd h (by simp)
    | some r =>
        rw [h3] at h
        simp only [Bool.or_eq_true, decide_eq_true_eq] at h
        obtain ⟨a, b, c, ha, hb, hc, hcs⟩ := matchThreeSeg_sound h3
        cases h with
        | inl hr => exact Or.inl ⟨a, b, c, ha, hb, hc, by rw [hcs, hr]⟩
        | inr hr => exact Or.inr ⟨a, b, c, ha, hb, hc, by rw [hcs, hr]⟩
  · intro h
    cases h with
    | inl h =>
        obtain ⟨a, b, c, ha, hb, hc, hcs⟩ := h
        unfold buildBody
        rw [hcs, matchThreeSeg_complete _ ha hb hc]
        simp
    | inr h =>
        obtain ⟨a, b, c, ha, hb, hc, hcs⟩ := h
        unfold buildBody
        rw [hcs, matchThreeSeg_complete _ ha hb hc]
        simp

theorem reviewBody_iff (cs : List Char) : reviewBody cs = true ↔ ReviewShape cs := by
  constructor
  · intro h
    unfold reviewBody at h
    cases h3 : matchThreeSeg cs with
    | none => rw [h3] at h; exact absurd h (by simp)
    | some r =>
        rw [h3] at h
        simp only [decide_eq_true_eq] at h
        obtain ⟨a, b, c, ha, hb, hc, hcs⟩ := matchThreeSeg_sound h3
        exact ⟨a, b, c, ha, hb, hc, by rw [hcs, h]⟩
  · intro h
    obtain ⟨a, b, c, ha, hb, hc, hcs⟩ := h
    unfold reviewBody
    rw [hcs, matchThreeSeg_complete _ ha hb hc]
    simp

theorem pyMatchDollar_iff {bodyB : List Char → Bool} {P : List Char → Prop}
    (hbp : ∀ cs, bodyB cs = true ↔ P cs) (cs : List Char) :
    pyMatchDollar bodyB cs = true ↔ P cs ∨ ∃ t, cs = t ++ [nlChar] ∧ P t := by
  unfold pyMatchDollar
  rw [Bool.or_eq_true, hbp]
  constructor
  · rintro (h | h)
    · exact Or.inl h
    · cases hrev : cs.reverse with
      | nil => rw [hrev] at h; exact absurd h (by simp)
      | cons c t =>
          rw [hrev] at h
          simp only [Bool.and_eq_true, beq_iff_eq] at h
          refine Or.inr ⟨t.reverse, ?_, (hbp _).mp h.2⟩
          have : cs = (c :: t).reverse := by rw [← hrev, List.reverse_reverse]
          rw [this, List.reverse_cons, h.1]
  · rintro (h | ⟨t, hct, hp⟩)
    · exact Or.inl h
    · refine Or.inr ?_
      have hrev : cs.reverse = nlChar :: t.reverse := by
        rw [hct, List.reverse_append]
        simp
      rw [hrev]
      show (nlChar == nlChar && bodyB t.reverse.reverse) = true
      rw [List.reverse_reverse]
      simp only [beq_self_eq_true, Bool.true_and]
      exact (hbp _).mpr hp

theorem BUILD_REGEX_match_iff (s : String) : BUILD_REGEX_match s = true ↔ PyBuild s :=
  pyMatchDollar_iff buildBody_iff s.data

theorem REVIEW_REGEX_match_iff (s : String) : REVIEW_REGEX_match s = true ↔ PyReview s :=
  pyMatchDollar_iff reviewBody_iff s.data

theorem count_hyph_seg {a : List Char} (h : ∀ c ∈ a, isLowerAlnum c = true) :
    a.count hyphChar = 0 := by
  rw [List.count_eq_zero]
  intro hmem
  have hc := h _ hmem
  rw [isLowerAlnum_hyph] at hc
  exact absurd hc (by simp)

theorem count_hyph_matches {tail cs : List Char} (h : MatchesPattern tail cs) :
    cs.count hyphChar = 3 + tail.count hyphChar := by
  obtain ⟨a, b, c, ha, hb, hc, rfl⟩ := h
  simp [List.count_append, List.count_cons, count_hyph_seg ha.2, count_hyph_seg hb.2,
    count_hyph_seg hc.2]
  omega

theorem count_build {cs : List Char} (h : BuildShape cs) : cs.count hyphChar = 5 := by
  have hd : buildTailDefault.count hyphChar = 2 := by decide
  have he : buildTailEdp.count hyphChar = 2 := by decide
  cases h with
  | inl h => rw [count_hyph_matches h, hd]
  | inr h => rw [count_hyph_matches h, he]

theorem count_review {cs : List Char} (h : ReviewShape cs) : cs.count hyphChar = 4 := by
  have hr : reviewTail.count hyphChar = 1 := by decide
  rw [count_hyph_matches h, hr]

theorem matches_suffix {tail cs : List Char} (h : MatchesPattern tail cs) :
    ∃ y, cs = y ++ tail := by
  obtain ⟨a, b, c, _, _, _, rfl⟩ := h
  exact ⟨a ++ hyphChar :: (b ++ hyphChar :: (c ++ [hyphChar])), by simp⟩

theorem reverse_head_of_suffix {tail y cs : List Char} (h : cs = y ++ tail)
    (hne : tail ≠ []) : cs.reverse.head? = tail.reverse.head? := by
  subst h
  rw [List.reverse_append]
  cases htr : tail.reverse with
  | nil => exact absurd (List.reverse_eq_nil_iff.mp htr) hne
  | cons c t => rfl

theorem build_reverse_head {cs : List Char} (h : BuildShape cs) :
    cs.reverse.head? = some (Char.ofNat 116) ∨ cs.reverse.head? = some (Char.ofNat 112) := by
  cases h with
  | inl h =>
      obtain ⟨y, hy⟩ := matches_suffix h
      exact Or.inl (by rw [reverse_head_of_suffix hy (by decide)]; decide)
  | inr h =>
      obtain ⟨y, hy⟩ := matches_suffix h
      exact Or.inr (by rw [reverse_head_of_suffix hy (by decide)]; decide)

theorem review_reverse_head {cs : List Char} (h : ReviewShape cs) :
    cs.reverse.head? = some (Char.ofNat 119) := by
  obtain ⟨y, hy⟩ := matches_suffix h
  rw [reverse_head_of_suffix hy (by decide)]
  decide

theorem pyBuild_count {s : String} (h : PyBuild s) : s.data.count hyphChar = 5 := by
  cases h with
  | inl h => exact count_build h
  | inr h =>
      obtain ⟨t, hts, ht⟩ := h
      rw [hts, List.count_append, count_build ht]
      decide

theorem pyReview_count {s : String} (h : PyReview s) : s.data.count hyphChar = 4 := by
  cases h with
  | inl h => exact count_review h
  | inr h =>
      obtain ⟨t, hts, ht⟩ := h
      rw [hts, List.count_append, count_review ht]
      decide

theorem not_both_regex (s : String) :
    (BUILD_REGEX_match s && REVIEW_REGEX_match s) = false := by
  by_cases hb : BUILD_REGEX_match s = true
  · by_cases hr : REVIEW_REGEX_match s = true
    · have h5 := pyBuild_count ((BUILD_REGEX_match_iff s).mp hb)
      have h4 := pyReview_count ((REVIEW_REGEX_match_iff s).mp hr)
      omega
    · simp [Bool.eq_false_iff.mpr hr]
  · simp [Bool.eq_false_iff.mpr hb]

theorem validate_eq_of_build {name : String} (h : BUILD_REGEX_match name = true) :
    validate_pipeline_name name = (true, some "build") := by
  simp [validate_pipeline_name, h]

theorem validate_eq_of_review {name : String} (hb : BUILD_REGEX_match name = false)
    (hr : REVIEW_REGEX_match name = true) :
    validate_pipeline_name name = (true, some "review") := by
  simp [validate_pipeline_name, hb, hr]

theorem validate_eq_of_none {name : String} (hb : BUILD_REGEX_match name = false)
    (hr : REVIEW_REGEX_match name = false) :
    validate_pipeline_name name = (false, none) := by
  simp [validate_pipeline_name, hb, hr]

theorem pyLowerChar_fixed {c : Char} (h : componentChar c = true) : pyLowerChar c = c := by
  unfold componentChar isLowerAlnum at h
  simp only [Bool.or_eq_true, Bool.and_eq_true, decide_eq_true_eq, beq_iff_eq] at h
  rcases h with (⟨h1, h2⟩ | ⟨h1, h2⟩) | h3
  · have hcond : ¬((65 ≤ c.toNat && c.toNat ≤ 90) = true) := by
      simp only [Bool.and_eq_true, decide_eq_true_eq]
      omega
    unfold pyLowerChar
    rw [if_neg hcond]
  · have hcond : ¬((65 ≤ c.toNat && c.toNat ≤ 90) = true) := by
      simp only [Bool.and_eq_true, decide_eq_true_eq]
      omega
    unfold pyLowerChar
    rw [if_neg hcond]
  · rw [h3]; decide

theorem pyLower_fixed {s : String} (h : ∀ c ∈ s.data, componentChar c = true) :
    pyLower s = s := by
  unfold pyLower
  have hm : s.data.map pyLowerChar = s.data := by
    rw [List.map_congr_left (fun c hc => pyLowerChar_fixed (h c hc))]
    simp
  rw [hm]

theorem segOk_of_component {a : List Char} (hne : a ≠ [])
    (hall : ∀ c ∈ a, componentChar c = true) (hh : hyphChar ∉ a) : SegOk a := by
  refine ⟨hne, fun c hc => ?_⟩
  have h := hall c hc
  unfold componentChar at h
  rw [Bool.or_eq_true, beq_iff_eq] at h
  cases h with
  | inl h => exact h
  | inr h => exact absurd (h ▸ hc) hh

theorem build_format_data (v l f : String) :
    (BUILD_PATTERN_format v l f).data =
      v.data ++ hyphChar :: (l.data ++ hyphChar :: (f.data ++ hyphChar :: buildTailDefault)) := by
  unfold BUILD_PATTERN_format
  simp only [String.data_append]
  simp [hyphChar, buildTailDefault, List.append_assoc]

theorem review_format_data (v l f : String) :
    (REVIEW_PATTERN_format v l f).data =
      v.data ++ hyphChar :: (l.data ++ hyphChar :: (f.data ++ hyphChar :: reviewTail)) := by
  unfold REVIEW_PATTERN_format
  simp only [String.data_append]
  simp [hyphChar, reviewTail, List.append_assoc]

theorem componentBody_iff (cs : List Char) :
    componentBody cs = true ↔ cs ≠ [] ∧ ∀ c ∈ cs, componentChar c = true := by
  simp [componentBody, List.isEmpty_iff, List.all_eq_true]

theorem component_regex_match_iff (s : String) :
    component_regex_match s = true ↔
      (s.data ≠ [] ∧ ∀ c ∈ s.data, componentChar c = true) ∨
      ∃ t, s.data = t ++ [nlChar] ∧ (t ≠ [] ∧ ∀ c ∈ t, componentChar c = true) :=
  pyMatchDollar_iff componentBody_iff s.data

theorem validate_component_fst (component component_name : String) :
    (validate_component component component_name).fst = component_regex_match component := by
  unfold validate_component
  by_cases h : component = ""
  · subst h
    rw [if_pos rfl]
    show false = component_regex_match ""
    decide
  · rw [if_neg h]
    by_cases hc : component_regex_match component = true
    · simp [hc]
    · simp [Bool.eq_false_iff.mpr hc]

theorem validate_component_accepted (s name : String) :
    (validate_component s name).fst = true ↔ AcceptedComponent s := by
  rw [validate_component_fst]
  unfold AcceptedComponent
  exact component_regex_match_iff s

theorem gen_fst_data {v l f : String}
    (hv : ∀ c ∈ v.data, componentChar c = true)
    (hl : ∀ c ∈ l.data, componentChar c = true)
    (hf : ∀ c ∈ f.data, componentChar c = true) :
    (generate_pipeline_names v l f).fst.data =
      v.data ++ hyphChar :: (l.data ++ hyphChar :: (f.data ++ hyphChar :: buildTailDefault)) := by
  show (BUILD_PATTERN_format (pyLower v) (pyLower l) (pyLower f)).data = _
  rw [pyLower_fixed hv, pyLower_fixed hl, pyLower_fixed hf, build_format_data]

theorem gen_snd_data {v l f : String}
    (hv : ∀ c ∈ v.data, componentChar c = true)
    (hl : ∀ c ∈ l.data, componentChar c = true)
    (hf : ∀ c ∈ f.data, componentChar c = true) :
    (generate_pipeline_names v l f).snd.data =
      v.data ++ hyphChar :: (l.data ++ hyphChar :: (f.data ++ hyphChar :: reviewTail)) := by
  show (REVIEW_PATTERN_format (pyLower v) (pyLower l) (pyLower f)).data = _
  rw [pyLower_fixed hv, pyLower_fixed hl, pyLower_fixed hf, review_format_data]

theorem gen_fst_count {v l f : String}
    (hv : ∀ c ∈ v.data, componentChar c = true)
    (hl : ∀ c ∈ l.data, componentChar c = true)
    (hf : ∀ c ∈ f.data, componentChar c = true) :
    (generate_pipeline_names v l f).fst.data.count hyphChar =
      v.data.count hyphChar + l.data.count hyphChar + f.data.count hyphChar + 5 := by
  rw [gen_fst_data hv hl hf]
  have hbt : buildTailDefault.count hyphChar = 2 := by decide
  simp [List.count_append, List.count_cons, hbt]
  omega

theorem gen_snd_count {v l f : String}
    (hv : ∀ c ∈ v.data, componentChar c = true)
    (hl : ∀ c ∈ l.data, componentChar c = true)
    (hf : ∀ c ∈ f.data, componentChar c = true) :
    (generate_pipeline_names v l f).snd.data.count hyphChar =
      v.data.count hyphChar + l.data.count hyphChar + f.data.count hyphChar + 4 := by
  rw [gen_snd_data hv hl hf]
  have hrt : reviewTail.count hyphChar = 1 := by decide
  simp [List.count_append, List.count_cons, hrt]
  omega

theorem fst_not_review {v l f : String}
    (hv : ∀ c ∈ v.data, componentChar c = true)
    (hl : ∀ c ∈ l.data, componentChar c = true)
    (hf : ∀ c ∈ f.data, componentChar c = true) :
    REVIEW_REGEX_match (generate_pipeline_names v l f).fst = false := by
  have hs : (generate_pipeline_names v l f).fst.data =
      (v.data ++ hyphChar :: (l.data ++ hyphChar :: (f.data ++ [hyphChar]))) ++
        buildTailDefault := by
    rw [gen_fst_data hv hl hf]
    simp [List.append_assoc]
  rw [Bool.eq_false_iff]
  intro h
  have hT : (generate_pipeline_names v l f).fst.data.reverse.head? =
      some (Char.ofNat 116) := by
    rw [reverse_head_of_suffix hs (by decide)]
    decide
  rcases (REVIEW_REGEX_match_iff _).mp h with hr | ⟨t, hts, hr⟩
  · have hw := review_reverse_head hr
    rw [hT] at hw
    exact absurd (Option.some.inj hw) (by decide)
  · have hn : (generate_pipeline_names v l f).fst.data.reverse.head? = some nlChar := by
      rw [reverse_head_of_suffix hts (by simp)]
      decide
    rw [hT] at hn
    exact absurd (Option.some.inj hn) (by decide)

theorem snd_not_build {v l f : String}
    (hv : ∀ c ∈ v.data, componentChar c = true)
    (hl : ∀ c ∈ l.data, componentChar c = true)
    (hf : ∀ c ∈ f.data, componentChar c = true) :
    BUILD_REGEX_match (generate_pipeline_names v l f).snd = false := by
  have hs : (generate_pipeline_names v l f).snd.data =
      (v.data ++ hyphChar :: (l.data ++ hyphChar :: (f.data ++ [hyphChar]))) ++
        reviewTail := by
    rw [gen_snd_data hv hl hf]
    simp [List.append_assoc]
  rw [Bool.eq_false_iff]
  intro h
  have hW : (generate_pipeline_names v l f).snd.data.reverse.head? =
      some (Char.ofNat 119) := by
    rw [reverse_head_of_suffix hs (by decide)]
    decide
  rcases (BUILD_REGEX_match_iff _).mp h with hb | ⟨t, hts, hb⟩
  · rcases build_reverse_head hb with hh | hh
    · rw [hW] at hh
      exact absurd (Option.some.inj hh) (by decide)
    · rw [hW] at hh
      exact absurd (Option.some.inj hh) (by decide)
  · have hn : (generate_pipeline_names v l f).snd.data.reverse.head? = some nlChar := by
      rw [reverse_head_of_suffix hts (by simp)]
      decide
    rw [hW] at hn
    exact absurd (Option.some.inj hn) (by decide)

theorem main_gen_eq {p v l f : String} (hv : v ≠ "--validate") :
    main [p, v, l, f] = generateMode v l f := by
  show mainArgs v [l, f] = generateMode v l f
  unfold mainArgs
  rw [if_neg hv]

theorem main_validate_eq (p name : String) :
    main [p, "--validate", name] = validateMode name := by
  show mainArgs "--validate" [name] = validateMode name
  unfold mainArgs
  rw [if_pos rfl]

theorem generateMode_fail_vcs {v l f : String} (h : (validate_vcs v).fst = false) :
    generateMode v l f = ⟨1, [], (validate_vcs v).snd⟩ := by
  simp [generateMode, h]

theorem generateMode_fail_lang {v l f : String} (hv : (validate_vcs v).fst = true)
    (h : (validate_component l "language").fst = false) :
    generateMode v l f =
      ⟨1, [], (validate_vcs v).snd ++ (validate_component l "language").snd⟩ := by
  simp [generateMode, hv, h]

theorem generateMode_fail_fw {v l f : String} (hv : (validate_vcs v).fst = true)
    (hl : (validate_component l "language").fst = true)
    (h : (validate_component f "framework").fst = false) :
    generateMode v l f =
      ⟨1, [], (validate_vcs v).snd ++ (validate_component l "language").snd ++
        (validate_component f "framework").snd⟩ := by
  simp [generateMode, hv, hl, h]

theorem generateMode_ok {v l f : String} (hv : (validate_vcs v).fst = true)
    (hl : (validate_component l "language").fst = true)
    (hf : (validate_component f "framework").fst = true) :
    generateMode v l f =
      ⟨0,
       ["Generated pipeline names:",
        "  Build:  " ++ (generate_pipeline_names v l f).fst,
        "  Review: " ++ (generate_pipeline_names v l f).snd,
        "",
        "Onboarding commands:",
        onboardingCmd "build-pipeline" (generate_pipeline_names v l f).fst v,
        onboardingCmd "review-pipeline" (generate_pipeline_names v l f).snd v],
       (validate_vcs v).snd ++ (validate_component l "language").snd ++
         (validate_component f "framework").snd⟩ := by
  simp [generateMode, hv, hl, hf]

/-- C7 (counterexample): the language token of an `a` followed by a
newline contains a character outside `[a-z0-9-]`, yet generation does not
abort: Python `$` lets the trailing newline through, so the program exits
with code 0 and prints both names, the newline embedded in them. -/
theorem c7_counterexample :
    "a\n".data.all componentChar = false ∧
    (main ["generate-pipeline.py", "github", "a\n", "fastapi"]).exitCode = 0 ∧
    (main ["generate-pipeline.py", "github", "a\n", "fastapi"]).stdout =
      ["Generated pipeline names:",
       "  Build:  github-a\n-fastapi-app-build-default",
       "  Review: github-a\n-fastapi-app-review",
       "",
       "Onboarding commands:",
       "  ./charts/pipelines-library/scripts/onboarding-component.sh --type build-pipeline -n github-a\n-fastapi-app-build-default --vcs github",
       "  ./charts/pipelines-library/scripts/onboarding-component.sh --type review-pipeline -n github-a\n-fastapi-app-review --vcs github"] := by
  refine ⟨by decide, by decide, by decide⟩

/-- C7 (amended): in generation mode, if any of the three components fails
the structural check — it is empty, or contains a disallowed character in
a way not excused by the single-trailing-newline allowance of Python `$` —
the program emits a diagnostic to the error stream and exits with code 1
with nothing printed to stdout; components that pass the check lead to
exit code 0 with both names printed. -/
theorem c7_amended (p v l f : String) (hv : v ≠ "--validate") :
    ((¬AcceptedComponent v ∨ ¬AcceptedComponent l ∨ ¬AcceptedComponent f) →
      (main [p, v, l, f]).exitCode = 1 ∧ (main [p, v, l, f]).stdout = []) ∧
    (AcceptedComponent v → AcceptedComponent l → AcceptedComponent f →
      (main [p, v, l, f]).exitCode = 0 ∧
      (main [p, v, l, f]).stdout =
        ["Generated pipeline names:",
         "  Build:  " ++ (generate_pipeline_names v l f).fst,
         "  Review: " ++ (generate_pipeline_names v l f).snd,
         "",
         "Onboarding commands:",
         onboardingCmd "build-pipeline" (generate_pipeline_names v l f).fst v,
         onboardingCmd "review-pipeline" (generate_pipeline_names v l f).snd v]) := by
  rw [main_gen_eq hv]
  have hbool : ∀ s name, ¬AcceptedComponent s → (validate_component s name).fst = false := by
    intro s name h
    cases hc : (validate_component s name).fst
    · rfl
    · exact absurd ((validate_component_accepted s name).mp hc) h
  constructor
  · intro hfail
    rcases hfail with h | h | h
    · rw [generateMode_fail_vcs (hbool v "VCS" h)]
      exact ⟨rfl, rfl⟩
    · by_cases h1 : (validate_vcs v).fst = true
      · rw [generateMode_fail_lang h1 (hbool l "language" h)]
        exact ⟨rfl, rfl⟩
      · rw [generateMode_fail_vcs (Bool.eq_false_iff.mpr h1)]
        exact ⟨rfl, rfl⟩
    · by_cases h1 : (validate_vcs v).fst = true
      · by_cases h2 : (validate_component l "language").fst = true
        · rw [generateMode_fail_fw h1 h2 (hbool f "framework" h)]
          exact ⟨rfl, rfl⟩
        · rw [generateMode_fail_lang h1 (Bool.eq_false_iff.mpr h2)]
          exact ⟨rfl, rfl⟩
      · rw [generateMode_fail_vcs (Bool.eq_false_iff.mpr h1)]
        exact ⟨rfl, rfl⟩
  · intro h1 h2 h3
    rw [generateMode_ok ((validate_component_accepted v "VCS").mpr h1)
      ((validate_component_accepted l "language").mpr h2)
      ((validate_component_accepted f "framework").mpr h3)]
    exact ⟨rfl, rfl⟩

/-- C7 witness: the end-to-end example (gitlab, python, fastapi) exits 0
and prints both generated names. -/
theorem c7_witness :
    ("gitlab" : String) ≠ "--validate" ∧
    AcceptedComponent "gitlab" ∧
    (main ["generate-pipeline.py", "gitlab", "python", "fastapi"]).exitCode = 0 ∧
    (main ["generate-pipeline.py", "gitlab", "python", "fastapi"]).stdout =
      ["Generated pipeline names:",
       "  Build:  gitlab-python-fastapi-app-build-default",
       "  Review: gitlab-python-fastapi-app-review",
       "",
       "Onboarding commands:",
       "  ./charts/pipelines-library/scripts/onboarding-component.sh --type build-pipeline -n gitlab-python-fastapi-app-build-default --vcs gitlab",
       "  ./charts/pipelines-library/scripts/onboarding-component.sh --type review-pipeline -n gitlab-python-fastapi-app-review --vcs gitlab"] := by
  have hg : AcceptedComponent "gitlab" := Or.inl ⟨by decide, by decide⟩
  have hp : AcceptedComponent "python" := Or.inl ⟨by decide, by decide⟩
  have hfa : AcceptedComponent "fastapi" := Or.inl ⟨by decide, by decide⟩
  have h := (c7_amended "generate-pipeline.py" "gitlab" "python" "fastapi"
    (by decide)).2 hg hp hfa
  refine ⟨by decide, hg, h.1, ?_⟩
  rw [h.2]
  decide

/-- C8: in validation mode the exit code is 0 exactly when the name is
reported valid and 1 otherwise, and a wrong argument count in either mode
prints a usage message and exits with code 1. -/
theorem c8_validate_mode (p name x : String) (xs : List String) :
    ((main [p, "--validate", name]).exitCode =
      if (validate_pipeline_name name).fst then 0 else 1) ∧
    ((main [p]).exitCode = 1 ∧ (main [p]).stdout = [DOCSTRING]) ∧
    (xs.length ≠ 1 →
      (main (p :: "--validate" :: xs)).exitCode = 1 ∧
      (main (p :: "--validate" :: xs)).stdout = [validateUsage]) ∧
    (x ≠ "--validate" → xs.length ≠ 2 →
      (main (p :: x :: xs)).exitCode = 1 ∧
      (main (p :: x :: xs)).stdout = [generateUsage]) := by
  refine ⟨?_, ⟨rfl, rfl⟩, ?_, ?_⟩
  · rw [main_validate_eq]
    unfold validateMode
    by_cases h : (validate_pipeline_name name).fst = true
    · simp [h]
    · simp [Bool.eq_false_iff.mpr h]
  · intro hlen
    have hm : main (p :: "--validate" :: xs) = ⟨1, [validateUsage], []⟩ := by
      show mainArgs "--validate" xs = ⟨1, [validateUsage], []⟩
      unfold mainArgs
      rw [if_pos rfl]
      cases xs with
      | nil => rfl
      | cons a t =>
          cases t with
          | nil => exact absurd rfl hlen
          | cons b t2 => rfl
    rw [hm]
    exact ⟨rfl, rfl⟩
  · intro hx hlen
    have hm : main (p :: x :: xs) = ⟨1, [generateUsage], []⟩ := by
      show mainArgs x xs = ⟨1, [generateUsage], []⟩
      unfold mainArgs
      rw [if_neg hx]
      cases xs with
      | nil => rfl
      | cons a t =>
          cases t with
          | nil => rfl
          | cons b t2 =>
              cases t2 with
              | nil => exact absurd rfl hlen
              | cons c t3 => rfl
    rw [hm]
    exact ⟨rfl, rfl⟩

/-- C8 witness: a valid name exits 0, and a one-argument generation call
prints the usage message and exits 1. -/
theorem c8_witness :
    (main ["generate-pipeline.py", "--validate", "github-java-springboot-app-review"]).exitCode = 0 ∧
    ("github" : String) ≠ "--validate" ∧
    (main ["generate-pipeline.py", "github"]).exitCode = 1 ∧
    (main ["generate-pipeline.py", "github"]).stdout = [generateUsage] := by
  have h := c8_validate_mode "generate-pipeline.py"
    "github-java-springboot-app-review" "github" []
  have h4 := h.2.2.2 (by decide) (by decide)
  refine ⟨?_, by decide, h4.1, h4.2⟩
  rw [h.1]
  decide

/-- C1 (counterexample): with a single trailing newline appended, the name
matches neither pattern anchored to the full string (the anchored body
matchers reject it), yet `validate_pipeline_name` accepts it as a build
name, because Python `$` also matches just before a trailing newline. -/
theorem c1_counterexample :
    validate_pipeline_name "github-java-springboot-app-build-default\n" =
      (true, some "build") ∧
    buildBody "github-java-springboot-app-build-default\n".data = false ∧
    reviewBody "github-java-springboot-app-build-default\n".data = false := by
  refine ⟨by decide, by decide, by decide⟩

/-- C1 (amended): `validate_pipeline_name` returns `(true, "build")` exactly
when the name matches the build pattern, `(true, "review")` exactly when it
matches the review pattern, and `(false, none)` exactly when it matches
neither, where a match is anchored to the full string except that a single
trailing newline may precede the end anchor (Python `$` semantics); the
matching is case-sensitive, the patterns being built from `[a-z0-9]`. -/
theorem c1_amended (name : String) :
    (validate_pipeline_name name = (true, some "build") ↔ PyBuild name) ∧
    (validate_pipeline_name name = (true, some "review") ↔ PyReview name) ∧
    (validate_pipeline_name name = (false, none) ↔ ¬PyBuild name ∧ ¬PyReview name) := by
  have hbi := BUILD_REGEX_match_iff name
  have hri := REVIEW_REGEX_match_iff name
  by_cases hb : BUILD_REGEX_match name = true
  · have hpb : PyBuild name := hbi.mp hb
    have hnr : ¬PyReview name := fun hr => by
      have h5 := pyBuild_count hpb
      have h4 := pyReview_count hr
      omega
    rw [validate_eq_of_build hb]
    refine ⟨⟨fun _ => hpb, fun _ => rfl⟩, ⟨fun he => absurd he (by decide),
      fun hr => absurd hr hnr⟩, ⟨fun he => absurd he (by decide),
      fun hn => absurd hpb hn.1⟩⟩
  · have hb' : BUILD_REGEX_match name = false := Bool.eq_false_iff.mpr hb
    have hnpb : ¬PyBuild name := fun hpb => by
      rw [hbi.mpr hpb] at hb'
      exact absurd hb' (by simp)
    by_cases hr : REVIEW_REGEX_match name = true
    · have hpr : PyReview name := hri.mp hr
      rw [validate_eq_of_review hb' hr]
      refine ⟨⟨fun he => absurd he (by decide), fun hpb => absurd hpb hnpb⟩,
        ⟨fun _ => hpr, fun _ => rfl⟩, ⟨fun he => absurd he (by decide),
        fun hn => absurd hpr hn.2⟩⟩
    · have hr' : REVIEW_REGEX_match name = false := Bool.eq_false_iff.mpr hr
      have hnpr : ¬PyReview name := fun hpr => by
        rw [hri.mpr hpr] at hr'
        exact absurd hr' (by simp)
      rw [validate_eq_of_none hb' hr']
      refine ⟨⟨fun he => absurd he (by decide), fun hpb => absurd hpb hnpb⟩,
        ⟨fun he => absurd he (by decide), fun hpr => absurd hpr hnpr⟩,
        ⟨fun _ => ⟨hnpb, hnpr⟩, fun _ => rfl⟩⟩

/-- C2 (counterexample): the string of an `a` followed by a newline
contains a character outside `[a-z0-9-]`, yet `validate_component` returns
true on it, because Python `$` also matches just before a trailing
newline. -/
theorem c2_counterexample :
    (validate_component "a\n" "language").fst = true ∧
    "a\n".data.all componentChar = false := by
  refine ⟨by decide, by decide⟩

/-- C2 (amended): `validate_component` returns true iff the value is a
non-empty string of characters from `[a-z0-9-]`, or such a string followed
by exactly one trailing newline (Python `$` semantics); on every other
string, the empty string included, it returns false (by returning a
Boolean, never an exception — the embedding is a total function). -/
theorem c2_amended (value label : String) :
    (validate_component value label).fst = true ↔
      (value.data ≠ [] ∧ ∀ c ∈ value.data, componentChar c = true) ∨
      ∃ t, value.data = t ++ [nlChar] ∧ t ≠ [] ∧ ∀ c ∈ t, componentChar c = true := by
  rw [validate_component_fst]
  exact component_regex_match_iff value

/-- C4: for valid hyphen-free component tokens the generated build and
review names re-validate as `(true, "build")` and `(true, "review")`
respectively; and when the language or framework token contains a hyphen,
both generated names fail re-validation. -/
theorem c4_roundtrip (v l f : String)
    (hv : v.data ≠ [] ∧ ∀ c ∈ v.data, componentChar c = true)
    (hl : l.data ≠ [] ∧ ∀ c ∈ l.data, componentChar c = true)
    (hf : f.data ≠ [] ∧ ∀ c ∈ f.data, componentChar c = true) :
    (hyphChar ∉ v.data → hyphChar ∉ l.data → hyphChar ∉ f.data →
      validate_pipeline_name (generate_pipeline_names v l f).fst = (true, some "build") ∧
      validate_pipeline_name (generate_pipeline_names v l f).snd = (true, some "review")) ∧
    ((hyphChar ∈ l.data ∨ hyphChar ∈ f.data) →
      (validate_pipeline_name (generate_pipeline_names v l f).fst).fst = false ∧
      (validate_pipeline_name (generate_pipeline_names v l f).snd).fst = false) := by
  obtain ⟨hvne, hvc⟩ := hv
  obtain ⟨hlne, hlc⟩ := hl
  obtain ⟨hfne, hfc⟩ := hf
  constructor
  · intro hnv hnl hnf
    have hsb : BuildShape (generate_pipeline_names v l f).fst.data :=
      Or.inl ⟨v.data, l.data, f.data, segOk_of_component hvne hvc hnv,
        segOk_of_component hlne hlc hnl, segOk_of_component hfne hfc hnf,
        gen_fst_data hvc hlc hfc⟩
    have hsr : ReviewShape (generate_pipeline_names v l f).snd.data :=
      ⟨v.data, l.data, f.data, segOk_of_component hvne hvc hnv,
        segOk_of_component hlne hlc hnl, segOk_of_component hfne hfc hnf,
        gen_snd_data hvc hlc hfc⟩
    constructor
    · exact validate_eq_of_build ((BUILD_REGEX_match_iff _).mpr (Or.inl hsb))
    · exact validate_eq_of_review (snd_not_build hvc hlc hfc)
        ((REVIEW_REGEX_match_iff _).mpr (Or.inl hsr))
  · intro hmem
    have hcl : l.data.count hyphChar + f.data.count hyphChar ≠ 0 := by
      rcases hmem with hm | hm
      · have hz : l.data.count hyphChar ≠ 0 := fun h0 => (List.count_eq_zero.mp h0) hm
        omega
      · have hz : f.data.count hyphChar ≠ 0 := fun h0 => (List.count_eq_zero.mp h0) hm
        omega
    have hbf : BUILD_REGEX_match (generate_pipeline_names v l f).fst = false := by
      rw [Bool.eq_false_iff]
      intro h
      have h5 := pyBuild_count ((BUILD_REGEX_match_iff _).mp h)
      have hc := gen_fst_count hvc hlc hfc
      omega
    have hrs : REVIEW_REGEX_match (generate_pipeline_names v l f).snd = false := by
      rw [Bool.eq_false_iff]
      intro h
      have h4 := pyReview_count ((REVIEW_REGEX_match_iff _).mp h)
      have hc := gen_snd_count hvc hlc hfc
      omega
    constructor
    · rw [validate_eq_of_none hbf (fst_not_review hvc hlc hfc)]
    · rw [validate_eq_of_none (snd_not_build hvc hlc hfc) hrs]

/-- C4 witness: the round trip at (github, java, springboot). -/
theorem c4_witness :
    ("github".data ≠ [] ∧ ∀ c ∈ "github".data, componentChar c = true) ∧
    hyphChar ∉ "java".data ∧
    validate_pipeline_name (generate_pipeline_names "github" "java" "springboot").fst =
      (true, some "build") ∧
    validate_pipeline_name (generate_pipeline_names "github" "java" "springboot").snd =
      (true, some "review") := by
  have h := (c4_roundtrip "github" "java" "springboot" ⟨by decide, by decide⟩
    ⟨by decide, by decide⟩ ⟨by decide, by decide⟩).1 (by decide) (by decide) (by decide)
  exact ⟨⟨by decide, by decide⟩, by decide, h.1, h.2⟩

/-- C5: the four boundary names from the spec evaluate as stated. -/
theorem c5_boundary :
    validate_pipeline_name "github-java-springboot-app-build-default" = (true, some "build") ∧
    validate_pipeline_name "github-java-springboot-app-build-edp" = (true, some "build") ∧
    validate_pipeline_name "github-java-springboot-app-review" = (true, some "review") ∧
    validate_pipeline_name "github-java-springboot-app-build-custom" = (false, none) := by
  refine ⟨by decide, by decide, by decide, by decide⟩

/-- C6: `validate_vcs` always returns the Boolean of the structural check
`validate_component(vcs, "VCS")`; membership outside `SUPPORTED_VCS` only
prepends a warning to the diagnostics, and in particular "gitea" is
accepted with exactly that warning. -/
theorem c6_vcs :
    (∀ vcs : String, (validate_vcs vcs).fst = (validate_component vcs "VCS").fst) ∧
    (∀ vcs : String, SUPPORTED_VCS.contains vcs = false →
      (validate_vcs vcs).snd = vcs_warning vcs :: (validate_component vcs "VCS").snd) ∧
    validate_vcs "gitea" = (true, [vcs_warning "gitea"]) := by
  refine ⟨fun vcs => rfl, fun vcs h => ?_, by decide⟩
  show (if SUPPORTED_VCS.contains vcs then [] else [vcs_warning vcs]) ++
      (validate_component vcs "VCS").snd = _
  rw [h]
  rfl

/-- C6 witness: "gitea" is outside the supported set and gets the warning. -/
theorem c6_witness :
    SUPPORTED_VCS.contains "gitea" = false ∧
    (validate_vcs "gitea").snd =
      vcs_warning "gitea" :: (validate_component "gitea" "VCS").snd :=
  ⟨by decide, c6_vcs.2.1 "gitea" (by decide)⟩

/-- C9: no string is matched by both the build and the review regex, so the
result of `validate_pipeline_name` does not depend on the order in which
the two patterns are tried. -/
theorem c9_exclusive (name : String) :
    (BUILD_REGEX_match name && REVIEW_REGEX_match name) = false ∧
    validate_pipeline_name name = validate_pipeline_name_review_first name := by
  refine ⟨not_both_regex name, ?_⟩
  by_cases hb : BUILD_REGEX_match name = true
  · have hr : REVIEW_REGEX_match name = false := by
      have hn := not_both_regex name
      rw [hb] at hn
      simpa using hn
    simp [validate_pipeline_name, validate_pipeline_name_review_first, hb, hr]
  · have hb' : BUILD_REGEX_match name = false := Bool.eq_false_iff.mpr hb
    by_cases hr : REVIEW_REGEX_match name = true
    · simp [validate_pipeline_name, validate_pipeline_name_review_first, hb', hr]
    · simp [validate_pipeline_name, validate_pipeline_name_review_first, hb',
        Bool.eq_false_iff.mpr hr]

/-- C10: `validate_vcs` checks membership before structure, so an input
that is both unrecognized and structurally invalid produces the warning
followed by the structural error, and returns false — evaluated on the
empty string and on "GitHub". -/
theorem c10_warning_order :
    validate_vcs "" = (false, [vcs_warning "", "Error: VCS cannot be empty"]) ∧
    validate_vcs "GitHub" = (false, [vcs_warning "GitHub",
      "Error: VCS must contain only lowercase letters, numbers, and hyphens. Got: GitHub"]) := by
  refine ⟨by decide, by decide⟩


end GenPipeline
